import Mathlib

/-!
Verification development for the adaptive natural-language task pipeline of the
simple-todo application.  The definitions below are shallow embeddings of the
TypeScript source:

* the Draft Queue and its worker (src/components/TodoApp.tsx:
  enqueueDraftFromInput, processNextDraft, getNextDraft, the auto-drain effect);
* the model selector (src/lib/modelSelector.ts: validateQueryResults,
  isLowConfidence, analyzeExtractionComplexity, analyzeQueryComplexity,
  selectExtractionModel, selectQueryModel);
* the query-detection API route (app/api/ai/query/route.ts: POST with
  escalation) and the extraction API route (app/api/ai/extract/route.ts:
  extractTodos with provider fallback).

Remote calls are modelled by oracles that map a model identifier to either a
parsed result (`some r`) or a thrown error (`none`).  JavaScript strings are
Lean `String`s; JavaScript numbers appearing as confidences are `ℚ`; the
single-threaded JavaScript event loop is modelled by an event list folded over
the component state, each event being one synchronous segment of the source
(the segments between `await` points).
-/

namespace TodoPipeline

/-- Status of a Draft, from `interface Draft` in TodoApp.tsx
(`"queued" | "processing" | "error"`). -/
inductive DraftStatus where
  | queued
  | processing
  | error
deriving DecidableEq, Repr

/-- A pending creation request, from `interface Draft` in TodoApp.tsx.  The
client-generated string id (`Date.now()-random`) is modelled by a Nat drawn
from a per-state counter: ids are unique and increase with submission time,
which is exactly what the code relies on (`createdAt` ordering is implied by
id order in this model, so a separate timestamp field is not carried). -/
structure Draft where
  id : Nat
  text : String
  status : DraftStatus
  errMsg : Option String := none
deriving DecidableEq, Repr

/-- The queue-related component state of TodoApp: the `drafts` array (newest
first, because `setDrafts((prev) => [draft, ...prev])` prepends), the
`isProcessingDraft` flag together with the draft id captured by the running
`processNextDraft` invocation (the flag is true exactly while some id is
captured, so both are modelled by one `Option Nat`), and the id counter. -/
structure QueueState where
  drafts : List Draft
  inflight : Option Nat
  nextId : Nat
deriving DecidableEq, Repr

/-- JavaScript whitespace, as relevant to `String.prototype.trim` and to the
`\s` character class of the regular expressions in the source (space, tab,
newline, carriage return, vertical tab, form feed; exotic unicode space
characters are not used by any string in this development). -/
def isWhitespaceChar (c : Char) : Bool :=
  c = ' ' || c = '\t' || c = '\n' || c = '\r' || c = '\x0b' || c = '\x0c'

/-- JavaScript `String.prototype.trim`: drop whitespace from both ends.
(Defined over the character list so it reduces inside the kernel.) -/
def jsTrim (s : String) : String :=
  String.mk (((s.data.dropWhile isWhitespaceChar).reverse.dropWhile isWhitespaceChar).reverse)

/-- The initial component state: `useState<Draft[]>([])`,
`useState(false)`. -/
def initialQueueState : QueueState := { drafts := [], inflight := none, nextId := 0 }

/-- getNextDraft from TodoApp.tsx: filter the drafts whose status is
`queued` and take the last element of the array
(`queued.slice(-1)[0]`) — the oldest one, since new drafts are prepended. -/
def getNextDraft (drafts : List Draft) : Option Draft :=
  (drafts.filter (fun d => d.status = DraftStatus.queued)).getLast?

/-- One synchronous segment of the queue code.  Each constructor is one
uninterruptible stretch of the source between `await` points:

* `enqueue` — the synchronous prefix of `enqueueDraftFromInput` (trim, bail
  out on empty input, prepend a fresh queued draft);
* `drain` — the synchronous prefix of `processNextDraft` (guard on
  `isProcessingDraft`, select `getNextDraft`, set the flag, mark the draft
  `processing`);
* `finishOk` — the tail of `processNextDraft` after a successful extraction
  (remove the processed draft, clear the flag);
* `finishErr` — the catch/finally tail of `processNextDraft`
  (mark the draft `error` with `err?.message || "Failed"`, clear the flag);
* `classifyQuery` — the query branch of `enqueueDraftFromInput` after the
  classification fetch returned `isQuery: true` (remove the draft by id);
* `classifyFail` — the catch branch of `enqueueDraftFromInput` after the
  classification fetch failed (no state change: the code only logs). -/
inductive QEvent where
  | enqueue (input : String)
  | drain
  | finishOk
  | finishErr (msg : String)
  | classifyQuery (id : Nat)
  | classifyFail
deriving DecidableEq, Repr

/-- Apply one event to the component state, translated line by line from
TodoApp.tsx (see `QEvent` for the source location of each branch). -/
def applyEvent (s : QueueState) : QEvent → QueueState
  | QEvent.enqueue input =>
    let text := jsTrim input
    if text = "" then s
    else
      { s with
        drafts := { id := s.nextId, text := text, status := DraftStatus.queued } :: s.drafts,
        nextId := s.nextId + 1 }
  | QEvent.drain =>
    match s.inflight with
    | some _ => s
    | none =>
      match getNextDraft s.drafts with
      | none => s
      | some next =>
        { s with
          inflight := some next.id,
          drafts := s.drafts.map (fun d =>
            if d.id = next.id then { d with status := DraftStatus.processing, errMsg := none } else d) }
  | QEvent.finishOk =>
    match s.inflight with
    | none => s
    | some i =>
      { s with inflight := none, drafts := s.drafts.filter (fun d => d.id ≠ i) }
  | QEvent.finishErr msg =>
    match s.inflight with
    | none => s
    | some i =>
      { s with
        inflight := none,
        drafts := s.drafts.map (fun d =>
          if d.id = i then
            { d with status := DraftStatus.error,
                     errMsg := some (if msg = "" then "Failed" else msg) }
          else d) }
  | QEvent.classifyQuery id =>
    { s with drafts := s.drafts.filter (fun d => d.id ≠ id) }
  | QEvent.classifyFail => s

/-- Run a sequence of events from the initial state. -/
def runQueue (es : List QEvent) : QueueState :=
  es.foldl applyEvent initialQueueState

/-- Invariant of every reachable queue state: draft ids are strictly
decreasing along the array (newest first), all ids are below the counter, a
draft in status `processing` is exactly a draft whose id is captured by the
in-flight worker, and the captured id is below the counter. -/
structure QueueInv (s : QueueState) : Prop where
  sorted : s.drafts.Pairwise (fun a b => b.id < a.id)
  bound : ∀ d ∈ s.drafts, d.id < s.nextId
  procInflight : ∀ d ∈ s.drafts, d.status = DraftStatus.processing → s.inflight = some d.id
  inflightBound : ∀ i, s.inflight = some i → i < s.nextId
  inflightProc : ∀ i, s.inflight = some i → ∀ d ∈ s.drafts, d.id = i →
    d.status = DraftStatus.processing

/-- Two drafts of an id-sorted list with the same id are the same draft. -/
theorem draft_eq_of_id_eq {l : List Draft} (hl : l.Pairwise (fun a b => b.id < a.id))
    {a b : Draft} (ha : a ∈ l) (hb : b ∈ l) (h : a.id = b.id) : a = b := by
  induction l with
  | nil => cases ha
  | cons x t ih =>
    rcases List.pairwise_cons.mp hl with ⟨hx, ht⟩
    rcases List.mem_cons.mp ha with ha1 | ha1
    · rcases List.mem_cons.mp hb with hb1 | hb1
      · exact ha1.trans hb1.symm
      · subst ha1
        have hlt := hx b hb1
        rw [← h] at hlt
        exact absurd hlt (lt_irrefl _)
    · rcases List.mem_cons.mp hb with hb1 | hb1
      · subst hb1
        have hlt := hx a ha1
        rw [h] at hlt
        exact absurd hlt (lt_irrefl _)
      · exact ih ht ha1 hb1

/-- A draft returned by getNextDraft is a queued member of the array. -/
theorem getNextDraft_mem_queued {l : List Draft} {d : Draft}
    (h : getNextDraft l = some d) : d ∈ l ∧ d.status = DraftStatus.queued := by
  have hmem : d ∈ l.filter (fun d => d.status = DraftStatus.queued) := by
    unfold getNextDraft at h
    cases hl : l.filter (fun d => d.status = DraftStatus.queued) with
    | nil => rw [hl] at h; cases h
    | cons x t =>
      rw [hl] at h
      have := List.getLast?_eq_getLast (x :: t) (by simp)
      rw [this] at h
      have hlast := List.getLast_mem (l := x :: t) (by simp)
      rw [Option.some.inj h] at hlast
      exact hlast
  exact ⟨List.mem_of_mem_filter hmem, by simpa using List.of_mem_filter hmem⟩

theorem queueInv_initial : QueueInv initialQueueState := by
  constructor <;> simp [initialQueueState]

theorem queueInv_apply {s : QueueState} (h : QueueInv s) (e : QEvent) :
    QueueInv (applyEvent s e) := by
  obtain ⟨hsort, hbound, hproc, hinb, hinp⟩ := h
  cases e with
  | enqueue input =>
    by_cases htrim : jsTrim input = ""
    · simpa [applyEvent, htrim] using ⟨hsort, hbound, hproc, hinb, hinp⟩
    · simp only [applyEvent, htrim, if_false]
      refine ⟨?_, ?_, ?_, ?_, ?_⟩
      · exact List.pairwise_cons.mpr ⟨fun d hd => hbound d hd, hsort⟩
      · intro d hd
        rcases List.mem_cons.mp hd with rfl | hd
        · exact Nat.lt_succ_self _
        · exact Nat.lt_succ_of_lt (hbound d hd)
      · intro d hd hds
        rcases List.mem_cons.mp hd with rfl | hd
        · simp at hds
        · exact hproc d hd hds
      · intro i hi
        exact Nat.lt_succ_of_lt (hinb i hi)
      · intro i hi d hd hdi
        rcases List.mem_cons.mp hd with rfl | hd
        · exact absurd (hdi ▸ hinb i hi) (by simp)
        · exact hinp i hi d hd hdi
  | drain =>
    cases hin : s.inflight with
    | some i => simpa [applyEvent, hin] using ⟨hsort, hbound, hproc, hinb, hinp⟩
    | none =>
      cases hnext : getNextDraft s.drafts with
      | none => simpa [applyEvent, hin, hnext] using ⟨hsort, hbound, hproc, hinb, hinp⟩
      | some next =>
        obtain ⟨hnmem, -⟩ := getNextDraft_mem_queued hnext
        have hid : ∀ d : Draft,
            ((fun d => if d.id = next.id
              then { d with status := DraftStatus.processing, errMsg := none } else d) d).id
              = d.id := by
          intro d; by_cases h : d.id = next.id <;> simp [h]
        simp only [applyEvent, hin, hnext]
        refine ⟨?_, ?_, ?_, ?_, ?_⟩
        · refine (List.pairwise_map).mpr (hsort.imp ?_)
          intro a b hab
          simpa [hid] using hab
        · intro d hd
          rcases List.mem_map.mp hd with ⟨a, ha, rfl⟩
          rw [hid]
          exact hbound a ha
        · intro d hd hds
          rcases List.mem_map.mp hd with ⟨a, ha, rfl⟩
          rw [hid]
          by_cases h : a.id = next.id
          · simp [h]
          · simp only [h, if_false] at hds ⊢
            exact absurd (hproc a ha hds) (by simp [hin])
        · intro i hi
          have : i = next.id := (Option.some.inj hi).symm
          exact this ▸ hbound next hnmem
        · intro i hi d hd hdi
          rcases List.mem_map.mp hd with ⟨a, ha, rfl⟩
          have hii : i = next.id := (Option.some.inj hi).symm
          rw [hid] at hdi
          by_cases h : a.id = next.id
          · simp [h]
          · exact absurd (hdi.trans hii) h
  | finishOk =>
    cases hin : s.inflight with
    | none => simpa [applyEvent, hin] using ⟨hsort, hbound, hproc, hinb, hinp⟩
    | some i =>
      simp only [applyEvent, hin]
      refine ⟨?_, ?_, ?_, ?_, ?_⟩
      · exact hsort.sublist (List.filter_sublist _)
      · intro d hd
        exact hbound d (List.mem_of_mem_filter hd)
      · intro d hd hds
        have hmem := List.mem_of_mem_filter hd
        have := hproc d hmem hds
        rw [hin] at this
        have hdi : d.id = i := (Option.some.inj this).symm
        have := List.of_mem_filter hd
        simp [hdi] at this
      · intro i hi
        cases hi
      · intro i hi
        cases hi
  | finishErr msg =>
    cases hin : s.inflight with
    | none => simpa [applyEvent, hin] using ⟨hsort, hbound, hproc, hinb, hinp⟩
    | some i =>
      have hid : ∀ d : Draft,
          ((fun d => if d.id = i
            then { d with status := DraftStatus.error,
                          errMsg := some (if msg = "" then "Failed" else msg) } else d) d).id
            = d.id := by
        intro d; by_cases h : d.id = i <;> simp [h]
      simp only [applyEvent, hin]
      refine ⟨?_, ?_, ?_, ?_, ?_⟩
      · refine (List.pairwise_map).mpr (hsort.imp ?_)
        intro a b hab
        simpa [hid] using hab
      · intro d hd
        rcases List.mem_map.mp hd with ⟨a, ha, rfl⟩
        rw [hid]
        exact hbound a ha
      · intro d hd hds
        rcases List.mem_map.mp hd with ⟨a, ha, rfl⟩
        by_cases h : a.id = i
        · simp [h] at hds
        · simp only [h, if_false] at hds ⊢
          have := hproc a ha hds
          rw [hin] at this
          exact absurd (Option.some.inj this).symm h
      · intro i hi
        cases hi
      · intro i hi
        cases hi
  | classifyQuery id =>
    simp only [applyEvent]
    refine ⟨?_, ?_, ?_, ?_, ?_⟩
    · exact hsort.sublist (List.filter_sublist _)
    · intro d hd
      exact hbound d (List.mem_of_mem_filter hd)
    · intro d hd hds
      exact hproc d (List.mem_of_mem_filter hd) hds
    · exact hinb
    · intro i hi d hd hdi
      exact hinp i hi d (List.mem_of_mem_filter hd) hdi
  | classifyFail => exact ⟨hsort, hbound, hproc, hinb, hinp⟩

theorem queueInv_run (es : List QEvent) : QueueInv (runQueue es) := by
  rw [runQueue]
  induction es using List.reverseRecOn with
  | nil => exact queueInv_initial
  | append_singleton es e ih =>
    rw [List.foldl_append, List.foldl_cons, List.foldl_nil]
    exact queueInv_apply ih e


/-- An element returned by getLast? is a member of the list. -/
theorem mem_of_getLast_opt {α : Type} {l : List α} {a : α} (h : l.getLast? = some a) :
    a ∈ l := by
  cases l with
  | nil => cases h
  | cons x t =>
    have hg := List.getLast?_eq_getLast (x :: t) (by simp)
    rw [hg] at h
    exact (Option.some.inj h) ▸ List.getLast_mem _

/-- In a list whose ids strictly decrease, the last element has the least id. -/
theorem getLast_min_of_sorted {l : List Draft} (hl : l.Pairwise (fun a b => b.id < a.id))
    {m : Draft} (h : l.getLast? = some m) : ∀ x ∈ l, m.id ≤ x.id := by
  induction l with
  | nil => cases h
  | cons a t ih =>
    cases t with
    | nil =>
      have hm : m = a := by simpa using h.symm
      intro x hx
      rcases List.mem_cons.mp hx with rfl | hx
      · exact hm ▸ le_refl _
      · cases hx
    | cons b t2 =>
      obtain ⟨hhead, htail⟩ := List.pairwise_cons.mp hl
      have h2 : (b :: t2).getLast? = some m := by
        simpa [List.getLast?_cons_cons] using h
      have hmem : m ∈ b :: t2 := mem_of_getLast_opt h2
      intro x hx
      rcases List.mem_cons.mp hx with rfl | hx
      · exact le_of_lt (hhead m hmem)
      · exact ih htail h2 x hx

/-- C1: in every reachable state of the Draft Queue, whenever
getNextDraft picks a draft for processing, that draft is the oldest one
(the least id, ids being assigned in submission order) among the drafts
currently in status `queued` — true FIFO, regardless of how many enqueues
happened before the first drain and regardless of earlier removals or
error-marked drafts remaining in the buffer. -/
theorem draftQueue_fifo (es : List QEvent) (d : Draft)
    (h : getNextDraft (runQueue es).drafts = some d) :
    ∀ dq ∈ (runQueue es).drafts, dq.status = DraftStatus.queued → d.id ≤ dq.id := by
  have hinv := queueInv_run es
  intro dq hdq hq
  have hmemf : dq ∈ (runQueue es).drafts.filter
      (fun d => d.status = DraftStatus.queued) :=
    List.mem_filter.mpr ⟨hdq, by simp [hq]⟩
  have hsf := hinv.sorted.filter (fun d => decide (d.status = DraftStatus.queued))
  unfold getNextDraft at h
  exact getLast_min_of_sorted hsf h dq hmemf

/-- Witness for C1: enqueue "buy milk" then "walk dog"; the draft selected
next is the older one (id 0), whose id is at most the id of the newer
queued draft (id 1). -/
theorem draftQueue_fifo_witness :
    getNextDraft (runQueue [QEvent.enqueue "buy milk", QEvent.enqueue "walk dog"]).drafts =
      some { id := 0, text := "buy milk", status := DraftStatus.queued, errMsg := none } ∧
    ({ id := 0, text := "buy milk", status := DraftStatus.queued, errMsg := none } : Draft).id ≤
      ({ id := 1, text := "walk dog", status := DraftStatus.queued, errMsg := none } : Draft).id := by
  refine ⟨by decide, ?_⟩
  exact draftQueue_fifo [QEvent.enqueue "buy milk", QEvent.enqueue "walk dog"]
    { id := 0, text := "buy milk", status := DraftStatus.queued, errMsg := none } (by decide)
    { id := 1, text := "walk dog", status := DraftStatus.queued, errMsg := none } (by decide)
    (by decide)

/-- C2: in every reachable state of the Draft Queue the number of drafts in
status `processing` is at most 1, and a drain trigger arriving while a draft
is already being processed (the in-flight flag is set) is a no-op on any
state. -/
theorem draftQueue_single_processing (es : List QEvent) :
    ((runQueue es).drafts.countP (fun d => d.status = DraftStatus.processing)) ≤ 1 ∧
    (∀ s : QueueState, s.inflight.isSome = true → applyEvent s QEvent.drain = s) := by
  constructor
  · have hinv := queueInv_run es
    rw [List.countP_eq_length_filter]
    cases hl : (runQueue es).drafts.filter
        (fun d => d.status = DraftStatus.processing) with
    | nil => simp
    | cons x t =>
      cases t with
      | nil => simp
      | cons y t2 =>
        exfalso
        have hx : x ∈ (runQueue es).drafts.filter
            (fun d => d.status = DraftStatus.processing) := by
          rw [hl]; exact List.mem_cons_self _ _
        have hy : y ∈ (runQueue es).drafts.filter
            (fun d => d.status = DraftStatus.processing) := by
          rw [hl]; exact List.mem_cons.mpr (Or.inr (List.mem_cons_self _ _))
        have hxs : x.status = DraftStatus.processing := by
          simpa using List.of_mem_filter hx
        have hys : y.status = DraftStatus.processing := by
          simpa using List.of_mem_filter hy
        have hxi := hinv.procInflight x (List.mem_of_mem_filter hx) hxs
        have hyi := hinv.procInflight y (List.mem_of_mem_filter hy) hys
        have hid : x.id = y.id := Option.some.inj (hxi.symm.trans hyi)
        have hxy : x = y := draft_eq_of_id_eq hinv.sorted
          (List.mem_of_mem_filter hx) (List.mem_of_mem_filter hy) hid
        have hps := hinv.sorted.filter
          (fun d => decide (d.status = DraftStatus.processing))
        rw [hl] at hps
        have := (List.pairwise_cons.mp hps).1 y (List.mem_cons_self _ _)
        rw [hxy] at this
        exact lt_irrefl _ this
  · intro s hs
    cases hin : s.inflight with
    | none => rw [hin] at hs; cases hs
    | some i => simp [applyEvent, hin]

/-- Witness for C2: after enqueuing one draft and draining, exactly one
draft is processing, the in-flight flag is set, and a further drain trigger
leaves the state unchanged. -/
theorem draftQueue_single_processing_witness :
    ((runQueue [QEvent.enqueue "a", QEvent.drain]).drafts.countP
      (fun d => d.status = DraftStatus.processing)) ≤ 1 ∧
    (runQueue [QEvent.enqueue "a", QEvent.drain]).inflight.isSome = true ∧
    applyEvent (runQueue [QEvent.enqueue "a", QEvent.drain]) QEvent.drain =
      runQueue [QEvent.enqueue "a", QEvent.drain] :=
  ⟨(draftQueue_single_processing [QEvent.enqueue "a", QEvent.drain]).1, by decide,
    (draftQueue_single_processing [QEvent.enqueue "a", QEvent.drain]).2 _ (by decide)⟩

/-- C5 counterexample: the claim says no draft is removed while still in
status `queued`, but the query branch of enqueueDraftFromInput removes the
optimistically created draft while it is still queued: after enqueuing
"whats urgent" the draft sits in the buffer with status `queued` and was
never `processing`, and the classification step that judges the input a
query deletes it. -/
theorem draft_removed_while_queued :
    (runQueue [QEvent.enqueue "whats urgent"]).drafts =
      [{ id := 0, text := "whats urgent", status := DraftStatus.queued, errMsg := none }] ∧
    (runQueue [QEvent.enqueue "whats urgent", QEvent.classifyQuery 0]).drafts = [] := by
  constructor <;> decide

/-- C5 amended: within the queue worker a Draft only moves forward along
queued → processing → {removed | error}: across any single event, a draft
that survives either keeps its status, or goes queued → processing (drain),
or goes processing → error (extraction failure); in particular an `error`
draft is never returned to `queued`, and drain never selects a non-queued
draft, so error drafts are never re-processed by the queue itself.  The
one deviation from the original claim is removal: the query-classification
branch may delete a draft that is still `queued` (see the counterexample),
so removal is not restricted to processed drafts. -/
theorem draft_lifecycle_forward (es : List QEvent) (e : QEvent) :
    (∀ d ∈ (runQueue es).drafts, ∀ dn ∈ (applyEvent (runQueue es) e).drafts,
      dn.id = d.id →
      d.status = dn.status ∨
      (d.status = DraftStatus.queued ∧ dn.status = DraftStatus.processing) ∨
      (d.status = DraftStatus.processing ∧ dn.status = DraftStatus.error)) ∧
    (∀ dq, getNextDraft (runQueue es).drafts = some dq →
      dq.status = DraftStatus.queued) := by
  have hinv := queueInv_run es
  constructor
  · intro d hd dn hdn hid
    have same_list : ∀ {l : List Draft}, l = (runQueue es).drafts → dn ∈ l →
        d.status = dn.status ∨
        (d.status = DraftStatus.queued ∧ dn.status = DraftStatus.processing) ∨
        (d.status = DraftStatus.processing ∧ dn.status = DraftStatus.error) := by
      intro l hl hmem
      subst hl
      exact Or.inl (congrArg Draft.status (draft_eq_of_id_eq hinv.sorted hd hmem hid.symm))
    cases e with
    | enqueue input =>
      by_cases htrim : jsTrim input = ""
      · have happly : applyEvent (runQueue es) (QEvent.enqueue input) = runQueue es := by
          simp [applyEvent, htrim]
        rw [happly] at hdn
        exact same_list rfl hdn
      · simp only [applyEvent, htrim, if_false] at hdn
        rcases List.mem_cons.mp hdn with rfl | hdn
        · exact absurd (hid ▸ hinv.bound d hd) (by simp)
        · exact same_list rfl hdn
    | drain =>
      cases hin : (runQueue es).inflight with
      | some i =>
        have happly : applyEvent (runQueue es) QEvent.drain = runQueue es := by
          simp [applyEvent, hin]
        rw [happly] at hdn
        exact same_list rfl hdn
      | none =>
        cases hnext : getNextDraft (runQueue es).drafts with
        | none =>
          have happly : applyEvent (runQueue es) QEvent.drain = runQueue es := by
            simp [applyEvent, hin, hnext]
          rw [happly] at hdn
          exact same_list rfl hdn
        | some next =>
          obtain ⟨hnmem, hnq⟩ := getNextDraft_mem_queued hnext
          simp only [applyEvent, hin, hnext] at hdn
          rcases List.mem_map.mp hdn with ⟨a, ha, rfl⟩
          by_cases hani : a.id = next.id
          · have haid : a.id = d.id := by simpa [hani] using hid
            have had : a = d := draft_eq_of_id_eq hinv.sorted ha hd haid
            have hanext : a = next := draft_eq_of_id_eq hinv.sorted ha hnmem hani
            refine Or.inr (Or.inl ⟨?_, ?_⟩)
            · rw [← had, hanext]; exact hnq
            · simp [hani]
          · have haid : a.id = d.id := by simpa [hani] using hid
            have had : a = d := draft_eq_of_id_eq hinv.sorted ha hd haid
            simp only [hani, if_false]
            exact Or.inl (congrArg Draft.status had.symm)
    | finishOk =>
      cases hin : (runQueue es).inflight with
      | none =>
        have happly : applyEvent (runQueue es) QEvent.finishOk = runQueue es := by
          simp [applyEvent, hin]
        rw [happly] at hdn
        exact same_list rfl hdn
      | some i =>
        simp only [applyEvent, hin] at hdn
        exact same_list rfl (List.mem_of_mem_filter hdn)
    | finishErr msg =>
      cases hin : (runQueue es).inflight with
      | none =>
        have happly : applyEvent (runQueue es) (QEvent.finishErr msg) = runQueue es := by
          simp [applyEvent, hin]
        rw [happly] at hdn
        exact same_list rfl hdn
      | some i =>
        simp only [applyEvent, hin] at hdn
        rcases List.mem_map.mp hdn with ⟨a, ha, rfl⟩
        by_cases hai : a.id = i
        · have haid : a.id = d.id := by simpa [hai] using hid
          have had : a = d := draft_eq_of_id_eq hinv.sorted ha hd haid
          refine Or.inr (Or.inr ⟨?_, ?_⟩)
          · rw [← had]; exact hinv.inflightProc i hin a ha hai
          · simp [hai]
        · have haid : a.id = d.id := by simpa [hai] using hid
          have had : a = d := draft_eq_of_id_eq hinv.sorted ha hd haid
          simp only [hai, if_false]
          exact Or.inl (congrArg Draft.status had.symm)
    | classifyQuery id =>
      simp only [applyEvent] at hdn
      exact same_list rfl (List.mem_of_mem_filter hdn)
    | classifyFail =>
      exact same_list rfl hdn
  · intro dq hdq
    exact (getNextDraft_mem_queued hdq).2

/-- Witness for C5: enqueue "call mom" and drain; the surviving draft with
id 0 moved queued → processing, one of the allowed forward transitions. -/
theorem draft_lifecycle_forward_witness :
    ({ id := 0, text := "call mom", status := DraftStatus.queued, errMsg := none } : Draft).status =
        ({ id := 0, text := "call mom", status := DraftStatus.processing, errMsg := none } : Draft).status ∨
    (({ id := 0, text := "call mom", status := DraftStatus.queued, errMsg := none } : Draft).status = DraftStatus.queued ∧
      ({ id := 0, text := "call mom", status := DraftStatus.processing, errMsg := none } : Draft).status = DraftStatus.processing) ∨
    (({ id := 0, text := "call mom", status := DraftStatus.queued, errMsg := none } : Draft).status = DraftStatus.processing ∧
      ({ id := 0, text := "call mom", status := DraftStatus.processing, errMsg := none } : Draft).status = DraftStatus.error) :=
  (draft_lifecycle_forward [QEvent.enqueue "call mom"] QEvent.drain).1
    { id := 0, text := "call mom", status := DraftStatus.queued, errMsg := none } (by decide)
    { id := 0, text := "call mom", status := DraftStatus.processing, errMsg := none } (by decide)
    (by decide)

/-- A network call that invokes a remote inference provider: either the
query-classification fetch to /api/ai/query or the extraction fetch to
/api/ai/extract. -/
inductive InferenceCall where
  | queryClassify (text : String)
  | extract (text : String)
deriving DecidableEq, Repr

/-- enqueueDraftFromInput from TodoApp.tsx, as the synchronous draft
creation together with the list of inference-invoking calls the function
issues.  The function trims the input and bails out on empty text; otherwise
it prepends a fresh draft with status `queued` (optimistic UI) before any
network activity, and then issues exactly one classification fetch to
/api/ai/query for the same text — and no extraction call (extraction is
issued only later by processNextDraft). -/
def enqueueDraftFromInput (s : QueueState) (input : String) :
    QueueState × List InferenceCall :=
  let text := jsTrim input
  if text = "" then (s, [])
  else (applyEvent s (QEvent.enqueue input), [InferenceCall.queryClassify text])

/-- C4 counterexample: the claim says the enqueue step issues no call to any
remote inference provider (in particular no query-classification call), but
enqueueDraftFromInput issues exactly one classification call for every
non-empty input. -/
theorem enqueue_issues_classification :
    (enqueueDraftFromInput initialQueueState "buy milk").2 =
      [InferenceCall.queryClassify "buy milk"] := by decide

/-- C4 amended: enqueue always succeeds for non-empty input, creates the
draft with status `queued` immediately (the draft is in the buffer before
any network call, and the in-flight flag is untouched), and issues no
extraction call; however, it does issue one query-classification call for
the trimmed input in the background after creating the draft. -/
theorem enqueue_creates_queued_draft (s : QueueState) (input : String)
    (h : ¬ jsTrim input = "") :
    (enqueueDraftFromInput s input).1.drafts =
      { id := s.nextId, text := jsTrim input, status := DraftStatus.queued, errMsg := none }
        :: s.drafts ∧
    (enqueueDraftFromInput s input).1.inflight = s.inflight ∧
    (enqueueDraftFromInput s input).2 = [InferenceCall.queryClassify (jsTrim input)] ∧
    (∀ t, InferenceCall.extract t ∉ (enqueueDraftFromInput s input).2) := by
  refine ⟨?_, ?_, ?_, ?_⟩ <;> simp [enqueueDraftFromInput, applyEvent, h]

/-- Witness for C4: enqueuing "call dentist" prepends a queued draft and
issues exactly the one classification call. -/
theorem enqueue_creates_queued_draft_witness :
    ¬ jsTrim "call dentist" = "" ∧
    (enqueueDraftFromInput initialQueueState "call dentist").1.drafts =
      [{ id := 0, text := "call dentist", status := DraftStatus.queued, errMsg := none }] :=
  ⟨by decide, by
    have h := (enqueue_creates_queued_draft initialQueueState "call dentist" (by decide)).1
    simpa [initialQueueState] using h⟩

/-- C10: a failed query-classification fetch leaves the component state
exactly as it was — the optimistically created draft keeps status `queued`
with no error set, nothing is surfaced for that input, and every subsequent
run (for example the auto-drain trigger) behaves exactly as if the
classification failure had never happened, processing the draft as an
ordinary todo-creation draft. -/
theorem classification_failure_keeps_draft (es tail : List QEvent) :
    runQueue (es ++ QEvent.classifyFail :: tail) = runQueue (es ++ tail) ∧
    (∀ s : QueueState, applyEvent s QEvent.classifyFail = s) := by
  constructor
  · rw [runQueue, runQueue, List.foldl_append, List.foldl_append, List.foldl_cons]
    rfl
  · intro s
    rfl

/-- ASCII lowercasing of one character, the effect of JavaScript
`toLowerCase` on the ASCII strings this code handles. -/
def lowerChar (c : Char) : Char := c.toLower

/-- The character list of a string after JavaScript `toLowerCase`. -/
def lowerList (s : String) : List Char := s.data.map lowerChar

/-- The JavaScript regex class `\w` = [A-Za-z0-9_]. -/
def isWordChar (c : Char) : Bool := c.isAlphanum || c = '_'

/-- Prefix test on character lists. -/
def isPrefixOfChars : List Char → List Char → Bool
  | [], _ => true
  | _ :: _, [] => false
  | p :: ps, c :: cs => p = c && isPrefixOfChars ps cs

/-- Substring containment on character lists: JavaScript
`String.prototype.includes` and one-word regex alternations. -/
def containsSub (pat : List Char) : List Char → Bool
  | [] => isPrefixOfChars pat []
  | c :: t => isPrefixOfChars pat (c :: t) || containsSub pat t

/-- JavaScript `text.toLowerCase().includes(kw)` for a lowercase keyword `kw`. -/
def includesLower (text : String) (kw : String) : Bool :=
  containsSub kw.data (lowerList text)

/-!
A tiny nondeterministic matcher for the handful of regular expressions in
modelSelector.ts.  A pattern is a function from an input character list to
the list of possible remainders after matching a prefix of it; `searchM`
then implements the unanchored `RegExp.prototype.test`.  All inputs are
lowercased first, which implements the `i` flag of every pattern.
-/

/-- Match a literal word. -/
def litM (w : List Char) (l : List Char) : List (List Char) :=
  if isPrefixOfChars w l then [l.drop w.length] else []

/-- Match one or more characters of a class (regex `+`). -/
def plusM (cls : Char → Bool) : List Char → List (List Char)
  | [] => []
  | c :: cs => if cls c then cs :: plusM cls cs else []

/-- Match zero or more characters of a class (regex `*`). -/
def starM (cls : Char → Bool) : List Char → List (List Char)
  | [] => [[]]
  | c :: cs => (c :: cs) :: (if cls c then starM cls cs else [])

/-- Sequencing of two patterns. -/
def seqM (f g : List Char → List (List Char)) (l : List Char) : List (List Char) :=
  (f l).flatMap g

/-- Alternation of two patterns (regex `|`). -/
def altM (f g : List Char → List (List Char)) (l : List Char) : List (List Char) :=
  f l ++ g l

/-- An optional pattern (regex `?` on a group). -/
def optM (f : List Char → List (List Char)) (l : List Char) : List (List Char) :=
  l :: f l

/-- Unanchored match: `pattern.test(input)`. -/
def searchM (f : List Char → List (List Char)) : List Char → Bool
  | [] => !(f []).isEmpty
  | c :: t => !(f (c :: t)).isEmpty || searchM f t

def wsPlus : List Char → List (List Char) := plusM isWhitespaceChar

def wordPlus : List Char → List (List Char) := plusM isWordChar

def wordOrSpacePlus : List Char → List (List Char) :=
  plusM (fun c => isWordChar c || isWhitespaceChar c)

def digitPlus : List Char → List (List Char) := plusM Char.isDigit

/-- Regex `every\s+(other\s+)?[\w]+` (with `i`: input is lowercased). -/
def reEveryPat : List Char → List (List Char) :=
  seqM (litM "every".data)
    (seqM wsPlus (seqM (optM (seqM (litM "other".data) wsPlus)) wordPlus))

/-- Regex `until\s+[\w\s]+end`. -/
def reUntilPat : List Char → List (List Char) :=
  seqM (litM "until".data) (seqM wsPlus (seqM wordOrSpacePlus (litM "end".data)))

/-- Regex `after\s+my\s+[\w]+`. -/
def reAfterMyPat : List Char → List (List Char) :=
  seqM (litM "after".data)
    (seqM wsPlus (seqM (litM "my".data) (seqM wsPlus wordPlus)))

/-- Regex `weekday|weekend|business\s+day`. -/
def reWeekdayPat : List Char → List (List Char) :=
  altM (litM "weekday".data)
    (altM (litM "weekend".data) (seqM (litM "business".data) (seqM wsPlus (litM "day".data))))

/-- Regex `timezone|time\s+zone|PST|EST|GMT` (lowercased literals). -/
def reTimezonePat : List Char → List (List Char) :=
  altM (litM "timezone".data)
    (altM (seqM (litM "time".data) (seqM wsPlus (litM "zone".data)))
      (altM (litM "pst".data) (altM (litM "est".data) (litM "gmt".data))))

/-- Regex `quarter|fiscal|semester`. -/
def reQuarterPat : List Char → List (List Char) :=
  altM (litM "quarter".data) (altM (litM "fiscal".data) (litM "semester".data))

/-- Regex `after\s+[\w\s]+` (query date-math variant). -/
def reAfterPat : List Char → List (List Char) :=
  seqM (litM "after".data) (seqM wsPlus wordOrSpacePlus)

/-- Regex `within\s+\d+\s+(days|weeks|months)`. -/
def reWithinPat : List Char → List (List Char) :=
  seqM (litM "within".data)
    (seqM wsPlus (seqM digitPlus (seqM wsPlus
      (altM (litM "days".data) (altM (litM "weeks".data) (litM "months".data))))))

/-- Regex `\?.*\?` — two question marks on one line (`.` does not cross a
line terminator). -/
def reTwoQPat : List Char → List (List Char) :=
  seqM (litM "?".data)
    (seqM (starM (fun c => !(c = '\n' || c = '\r'))) (litM "?".data))

/-- Regex `maybe|perhaps|might|could be`. -/
def reMaybePat : List Char → List (List Char) :=
  altM (litM "maybe".data)
    (altM (litM "perhaps".data) (altM (litM "might".data) (litM "could be".data)))

/-- Regex `or\s+`. -/
def reOrPat : List Char → List (List Char) :=
  seqM (litM "or".data) wsPlus

/-- Worker for `splitParas`, the model of `text.split` on the regex of two
or more newlines.  `cur` is the reversed
current segment, `pending` counts the newlines just read (a maximal run of
at least two newlines is one separator). -/
def splitParasGo : List Char → List Char → Nat → List (List Char)
  | [], cur, pending =>
    if pending ≥ 2 then [cur.reverse, []]
    else [(List.replicate pending (Char.ofNat 10) ++ cur).reverse]
  | c :: rest, cur, pending =>
    if c = '\n' then splitParasGo rest cur (pending + 1)
    else if pending ≥ 2 then cur.reverse :: splitParasGo rest [c] 0
    else splitParasGo rest (c :: (List.replicate pending (Char.ofNat 10) ++ cur)) 0

/-- JavaScript `text.split(/\n\n+/)` on the character list. -/
def splitParas (l : List Char) : List (List Char) := splitParasGo l [] 0

/-- Record `ExtractionComplexityAnalysis` from modelSelector.ts. -/
structure ExtractionComplexityAnalysis where
  textLength : Nat
  estimatedTokens : Nat
  paragraphCount : Nat
  hasComplexDateReferences : Bool
  hasMultipleConstraints : Bool
deriving DecidableEq, Repr

/-- analyzeExtractionComplexity from modelSelector.ts: token estimate
`Math.ceil(length / 4)`, paragraph count of the non-blank `\n\n+`-separated
segments, the six complex-date regexes, and at least two distinct
constraint keywords contained in the lowercased text. -/
def analyzeExtractionComplexity (text : String) : ExtractionComplexityAnalysis :=
  let textLength := text.length
  let low := lowerList text
  { textLength := textLength
    estimatedTokens := (textLength + 3) / 4
    paragraphCount :=
      ((splitParas text.data).filter (fun p => p.any (fun c => !isWhitespaceChar c))).length
    hasComplexDateReferences :=
      [reEveryPat, reUntilPat, reAfterMyPat, reWeekdayPat, reTimezonePat,
        reQuarterPat].any (fun pat => searchM pat low)
    hasMultipleConstraints :=
      (["and", "but", "except", "exclude", "also", "plus", "along with"].filter
        (fun kw => includesLower text kw)).length ≥ 2 }

/-- A task record as the frontend sends it to the query route
(`interface Todo` in TodoApp.tsx). -/
structure Todo where
  id : Int
  text : String
  completed : Bool
  tags : List String
  priority : String
  dueDate : Option String
  context : Option String
  aiGenerated : Bool
  createdAt : String
  updatedAt : String
deriving DecidableEq, Repr

/-- Length of the JSON serialization of a string value (quotes included);
assumes the value needs no escape sequences, which holds for every string
used in this development. -/
def jsonStringLength (s : String) : Nat := s.length + 2

/-- Length of the JSON serialization of an optional string (null for none). -/
def jsonOptStringLength : Option String → Nat
  | none => 4
  | some s => jsonStringLength s

/-- Length of the JSON serialization of a string array. -/
def jsonStrListLength (l : List String) : Nat :=
  match l with
  | [] => 2
  | _ => 2 + (l.map jsonStringLength).sum + (l.length - 1)

/-- Length of the JSON serialization of a boolean. -/
def jsonBoolLength (b : Bool) : Nat := if b then 4 else 5

/-- Length of `JSON.stringify` of one Todo object: braces, the ten quoted
keys with colons, nine commas, and the serialized values (insertion order
of `interface Todo`; exact escaping is not modelled, see
`jsonStringLength`). -/
def todoJsonLength (t : Todo) : Nat :=
  2 + 9
    + (5 + (toString t.id).length)
    + (7 + jsonStringLength t.text)
    + (12 + jsonBoolLength t.completed)
    + (7 + jsonStrListLength t.tags)
    + (11 + jsonStringLength t.priority)
    + (10 + jsonOptStringLength t.dueDate)
    + (10 + jsonOptStringLength t.context)
    + (14 + jsonBoolLength t.aiGenerated)
    + (12 + jsonStringLength t.createdAt)
    + (12 + jsonStringLength t.updatedAt)

/-- Length of `JSON.stringify(todos)` for the whole corpus array. -/
def todosJsonLength : List Todo → Nat
  | [] => 2
  | l => 2 + (l.map todoJsonLength).sum + (l.length - 1)

/-- Record `QueryComplexityAnalysis` from modelSelector.ts. -/
structure QueryComplexityAnalysis where
  textLength : Nat
  estimatedTokens : Nat
  todoCount : Nat
  hasMultipleFilters : Bool
  isAmbiguous : Bool
  needsSummarization : Bool
  hasComplexDateMath : Bool
deriving DecidableEq, Repr

/-- analyzeQueryComplexity from modelSelector.ts: the token estimate also
counts the serialized corpus, and the signals are at least two filter
keywords, the three ambiguity patterns, the summarization vocabulary, and
the five date-math regexes. -/
def analyzeQueryComplexity (text : String) (todos : List Todo) : QueryComplexityAnalysis :=
  let textLength := text.length
  let low := lowerList text
  { textLength := textLength
    estimatedTokens := (textLength + todosJsonLength todos + 3) / 4
    todoCount := todos.length
    hasMultipleFilters :=
      (["and", "but", "except", "exclude", "not", "without"].filter
        (fun kw => includesLower text kw)).length ≥ 2
    isAmbiguous :=
      [reTwoQPat, reMaybePat, reOrPat].any (fun pat => searchM pat low)
    needsSummarization :=
      ["summarize", "overview", "plan", "focus areas", "what should i", "suggest",
        "prioritize", "week ahead", "coming up"].any (fun kw => includesLower text kw)
    hasComplexDateMath :=
      [reEveryPat, reUntilPat, reAfterPat, reQuarterPat,
        reWithinPat].any (fun pat => searchM pat low) }

/-- The two capability tiers (`type ModelTier = "fast" | "advanced"`). -/
inductive ModelTier where
  | fast
  | advanced
deriving DecidableEq, Repr

/-- Record `ModelSelectionResult` from modelSelector.ts. -/
structure ModelSelectionResult where
  tier : ModelTier
  reason : String
  anthropicModel : String
  openaiModel : String
deriving DecidableEq, Repr

/-- The branch cascade of selectExtractionModel, split out over the
analysis record so the selector can be studied for every verdict. -/
def selectExtractionModelFrom (analysis : ExtractionComplexityAnalysis) :
    ModelSelectionResult :=
  if analysis.estimatedTokens > 1000 then
    { tier := ModelTier.advanced,
      reason := "Long input (>1k tokens) requires deeper processing",
      anthropicModel := "claude-sonnet-4-5-20250929", openaiModel := "gpt-4.1" }
  else if analysis.paragraphCount > 2 then
    { tier := ModelTier.advanced,
      reason := "Multi-paragraph input (>2) needs context understanding",
      anthropicModel := "claude-sonnet-4-5-20250929", openaiModel := "gpt-4.1" }
  else if analysis.hasComplexDateReferences then
    { tier := ModelTier.advanced,
      reason := "Complex date/time references require advanced reasoning",
      anthropicModel := "claude-sonnet-4-5-20250929", openaiModel := "gpt-4.1" }
  else if analysis.hasMultipleConstraints then
    { tier := ModelTier.advanced,
      reason := "Multiple constraints require careful parsing",
      anthropicModel := "claude-sonnet-4-5-20250929", openaiModel := "gpt-4.1" }
  else
    { tier := ModelTier.fast,
      reason := "Simple, short input - fast model sufficient",
      anthropicModel := "claude-haiku-4-5-20251001", openaiModel := "o4-mini" }

/-- selectExtractionModel from modelSelector.ts. -/
def selectExtractionModel (text : String) : ModelSelectionResult :=
  selectExtractionModelFrom (analyzeExtractionComplexity text)

/-- The branch cascade of selectQueryModel, split out over the analysis
record. -/
def selectQueryModelFrom (analysis : QueryComplexityAnalysis) : ModelSelectionResult :=
  if analysis.estimatedTokens > 1000 then
    { tier := ModelTier.advanced,
      reason := "Large context (>1k tokens) requires advanced processing",
      anthropicModel := "claude-sonnet-4-5-20250929", openaiModel := "gpt-4.1" }
  else if analysis.isAmbiguous then
    { tier := ModelTier.advanced,
      reason := "Ambiguous input requires careful interpretation",
      anthropicModel := "claude-sonnet-4-5-20250929", openaiModel := "gpt-4.1" }
  else if analysis.hasMultipleFilters then
    { tier := ModelTier.advanced,
      reason := "Multi-constraint query needs complex reasoning",
      anthropicModel := "claude-sonnet-4-5-20250929", openaiModel := "gpt-4.1" }
  else if analysis.needsSummarization then
    { tier := ModelTier.advanced,
      reason := "Summarization/planning requires high-quality prose",
      anthropicModel := "claude-sonnet-4-5-20250929", openaiModel := "gpt-4.1" }
  else if analysis.hasComplexDateMath then
    { tier := ModelTier.advanced,
      reason := "Complex date calculations require advanced reasoning",
      anthropicModel := "claude-sonnet-4-5-20250929", openaiModel := "gpt-4.1" }
  else
    { tier := ModelTier.fast,
      reason := "Simple, single-intent query - fast model sufficient",
      anthropicModel := "claude-haiku-4-5-20251001", openaiModel := "o4-mini" }

/-- selectQueryModel from modelSelector.ts. -/
def selectQueryModel (text : String) (todos : List Todo) : ModelSelectionResult :=
  selectQueryModelFrom (analyzeQueryComplexity text todos)

/-- First triggered signal in priority order: scan boolean flags paired
with their justification strings and report the first that fires. -/
def firstTriggered : List (Bool × String) → Option String
  | [] => none
  | (b, r) :: rest => if b then some r else firstTriggered rest

/-- The extraction signals in the fixed priority order of the claim
(token estimate, paragraph count, complex dates, multiple constraints),
each paired with its justification. -/
def extractionSignalList (a : ExtractionComplexityAnalysis) : List (Bool × String) :=
  [(decide (a.estimatedTokens > 1000), "Long input (>1k tokens) requires deeper processing"),
   (decide (a.paragraphCount > 2), "Multi-paragraph input (>2) needs context understanding"),
   (a.hasComplexDateReferences, "Complex date/time references require advanced reasoning"),
   (a.hasMultipleConstraints, "Multiple constraints require careful parsing")]

/-- The query signals in the fixed priority order of the claim (token
estimate, ambiguity, multiple filters, summarization, complex date math). -/
def querySignalList (q : QueryComplexityAnalysis) : List (Bool × String) :=
  [(decide (q.estimatedTokens > 1000), "Large context (>1k tokens) requires advanced processing"),
   (q.isAmbiguous, "Ambiguous input requires careful interpretation"),
   (q.hasMultipleFilters, "Multi-constraint query needs complex reasoning"),
   (q.needsSummarization, "Summarization/planning requires high-quality prose"),
   (q.hasComplexDateMath, "Complex date calculations require advanced reasoning")]

/-- The tier decision as the spec words it: zero triggered signals give the
economy tier with the fixed economy identifiers; at least one triggered
signal gives the advanced tier with the fixed advanced identifiers and the
justification of the first triggered signal. -/
def specTierDecision (signals : List (Bool × String)) (fastReason : String) :
    ModelSelectionResult :=
  match firstTriggered signals with
  | none =>
    { tier := ModelTier.fast, reason := fastReason,
      anthropicModel := "claude-haiku-4-5-20251001", openaiModel := "o4-mini" }
  | some r =>
    { tier := ModelTier.advanced, reason := r,
      anthropicModel := "claude-sonnet-4-5-20250929", openaiModel := "gpt-4.1" }

/-- C6: for every complexity analysis with zero triggered signals the tier
selector returns the fast (economy) tier with the fixed economy model
identifiers for both providers, and for every analysis with at least one
triggered signal it returns the advanced tier with the fixed advanced
identifiers and the justification of the first triggered signal in the
fixed priority order — for both the extraction and the query selector. -/
theorem tierSelector_first_signal (a : ExtractionComplexityAnalysis)
    (q : QueryComplexityAnalysis) :
    selectExtractionModelFrom a =
      specTierDecision (extractionSignalList a) "Simple, short input - fast model sufficient" ∧
    selectQueryModelFrom q =
      specTierDecision (querySignalList q) "Simple, single-intent query - fast model sufficient" := by
  constructor
  · unfold selectExtractionModelFrom specTierDecision extractionSignalList firstTriggered
    by_cases h1 : a.estimatedTokens > 1000 <;>
      by_cases h2 : a.paragraphCount > 2 <;>
      by_cases h3 : a.hasComplexDateReferences = true <;>
      by_cases h4 : a.hasMultipleConstraints = true <;>
      simp [firstTriggered, h1, h2, h3, h4]
  · unfold selectQueryModelFrom specTierDecision querySignalList firstTriggered
    by_cases h1 : q.estimatedTokens > 1000 <;>
      by_cases h2 : q.isAmbiguous = true <;>
      by_cases h3 : q.hasMultipleFilters = true <;>
      by_cases h4 : q.needsSummarization = true <;>
      by_cases h5 : q.hasComplexDateMath = true <;>
      simp [firstTriggered, h1, h2, h3, h4, h5]

/-- The parsed query-detection response (the JSON shape requested by the
query route prompt), with the optional confidence fields of
`AIResponseWithConfidence`. -/
structure QResult where
  isQuery : Bool
  intent : String
  keywords : List String
  response : String
  matchingTodoIds : List Int
  confidence : Option ℚ
  confidenceReason : Option String
deriving DecidableEq, Repr

/-- Return shape of validateQueryResults. -/
structure ValidationResult where
  isValid : Bool
  reason : Option String
deriving DecidableEq, Repr

/-- Guardrail constant from modelSelector.ts. -/
def MAX_ESCALATIONS_PER_REQUEST : Nat := 1

/-- Guardrail constant from modelSelector.ts (0.7). -/
def LOW_CONFIDENCE_THRESHOLD : ℚ := mkRat 7 10

/-- Regex `what|show|list|find|get|tell me|any|have` of validateQueryResults
(case-insensitive substring of any alternative). -/
def isQuestionAboutTodos (text : String) : Bool :=
  ["what", "show", "list", "find", "get", "tell me", "any", "have"].any
    (fun kw => includesLower text kw)

/-- Regex `urgent|high|work|personal|today|tomorrow|this week` of
validateQueryResults. -/
def isSpecificQuery (text : String) : Bool :=
  ["urgent", "high", "work", "personal", "today", "tomorrow", "this week"].any
    (fun kw => includesLower text kw)

def zeroMatchesMsg : String :=
  "Query about todos returned zero matches despite having todos available"

def tooManyMatchesMsg : String :=
  "Query returned too many matches (>100), likely needs refinement"

def narrowBroadMsg : String :=
  "Specific query matched >90% of todos, likely too broad"

/-- validateQueryResults from modelSelector.ts: three suspicious patterns
checked in order (zero matches for a question despite a non-empty corpus,
more than 100 matches, a specific query matching more than 90 percent of a
corpus larger than 10), never raising, always returning a verdict with an
optional reason. -/
def validateQueryResults (result : QResult) (text : String) (todos : List Todo) :
    ValidationResult :=
  let matchingIds := result.matchingTodoIds
  if isQuestionAboutTodos text = true ∧ todos.length > 0 ∧ matchingIds.length = 0 ∧
      result.isQuery = true then
    { isValid := false, reason := some zeroMatchesMsg }
  else if matchingIds.length > 100 then
    { isValid := false, reason := some tooManyMatchesMsg }
  else if isSpecificQuery text = true ∧
      (if todos.length > 0 then (matchingIds.length : ℚ) / (todos.length : ℚ) else 0) > mkRat 9 10 ∧
      todos.length > 10 then
    { isValid := false, reason := some narrowBroadMsg }
  else
    { isValid := true, reason := none }

/-- Return shape of isLowConfidence. -/
structure LowConfidenceResult where
  isLow : Bool
  reason : Option String
  confidence : Option ℚ
deriving DecidableEq, Repr

/-- JavaScript `Number.prototype.toFixed(2)` on an exact rational (round half away
from zero for the nonnegative confidences used here; binary floating-point
artifacts are not modelled). -/
def ratToFixed2 (q : ℚ) : String :=
  let n : Int := Int.floor (q * 100 + 1 / 2)
  let whole := n / 100
  let frac := (n % 100).toNat
  toString whole ++ "." ++ (if frac < 10 then "0" ++ toString frac else toString frac)

/-- Default low-confidence message of isLowConfidence (template
`Model confidence ... below threshold 0.7`). -/
def lowConfDefaultMsg (c : ℚ) : String :=
  "Model confidence " ++ ratToFixed2 c ++ " below threshold 0.7"

/-- JavaScript `a || b` for an optional string `a` and a string default
`b` (the empty string is falsy). -/
def jsOrElse : Option String → String → String
  | some s, dflt => if s = "" then dflt else s
  | none, dflt => dflt

/-- JavaScript `a || b` for two optional strings. -/
def jsOrOpt : Option String → Option String → Option String
  | some s, b => if s = "" then b else some s
  | none, b => b

/-- isLowConfidence from modelSelector.ts: a result with a self-reported
confidence strictly below the threshold is low, with the model-provided
reason or a generated message; a result without a confidence field is
never low. -/
def isLowConfidence (result : QResult) : LowConfidenceResult :=
  match result.confidence with
  | some c =>
    if c < LOW_CONFIDENCE_THRESHOLD then
      { isLow := true,
        reason := some (jsOrElse result.confidenceReason (lowConfDefaultMsg c)),
        confidence := some c }
    else
      { isLow := false, reason := none, confidence := some c }
  | none => { isLow := false, reason := none, confidence := none }

/-- The combined escalation judgement of the query route: escalate when the
confidence check is low or the validation fails, and report
`confidenceCheck.reason || validationCheck.reason`. -/
def routeEscalationCheck (result : QResult) (text : String) (todos : List Todo) :
    Bool × Option String :=
  let cc := isLowConfidence result
  let vc := validateQueryResults result text todos
  (cc.isLow || !vc.isValid, jsOrOpt cc.reason vc.reason)

/-- The reason reported for the low-confidence condition (the model
confidence reason when present and non-empty, else the generated
message). -/
def specLowConfidenceReason (result : QResult) : String :=
  match result.confidence with
  | some c => jsOrElse result.confidenceReason (lowConfDefaultMsg c)
  | none => ""

/-- The escalation judgement as the claim words it: four independent
conditions checked in a fixed order — confidence present and strictly below
0.7; interrogative cue with a non-empty corpus, a query-marked result and
zero returned identifiers; more than 100 identifiers; a narrowing cue with
returned identifiers exceeding 90 percent of a corpus of size strictly
greater than 10 — reporting the reason of the first condition that fires. -/
def specEscalationJudgement (result : QResult) (text : String) (todos : List Todo) :
    Bool × Option String :=
  if (match result.confidence with
      | some c => decide (c < mkRat 7 10)
      | none => false) = true then
    (true, some (specLowConfidenceReason result))
  else if isQuestionAboutTodos text = true ∧ todos.length > 0 ∧
      result.matchingTodoIds.length = 0 ∧ result.isQuery = true then
    (true, some zeroMatchesMsg)
  else if result.matchingTodoIds.length > 100 then
    (true, some tooManyMatchesMsg)
  else if isSpecificQuery text = true ∧
      (result.matchingTodoIds.length : ℚ) > mkRat 9 10 * (todos.length : ℚ) ∧
      todos.length > 10 then
    (true, some narrowBroadMsg)
  else
    (false, none)

theorem lowConfDefaultMsg_ne_empty (c : ℚ) : lowConfDefaultMsg c ≠ "" := by
  intro h
  have hlen := congrArg String.length h
  rw [lowConfDefaultMsg] at hlen
  simp only [String.length_append] at hlen
  have h17 : ("Model confidence ").length = 17 := by decide
  rw [h17] at hlen
  have h0 : ("" : String).length = 0 := by decide
  rw [h0] at hlen
  omega

theorem jsOrElse_default_ne_empty (r : Option String) (c : ℚ) :
    jsOrElse r (lowConfDefaultMsg c) ≠ "" := by
  cases r with
  | none => exact lowConfDefaultMsg_ne_empty c
  | some s =>
    by_cases hs : s = ""
    · simpa [jsOrElse, hs] using lowConfDefaultMsg_ne_empty c
    · simp [jsOrElse, hs]

/-- The match-ratio condition of validateQueryResults agrees with the
multiplied-out formulation of the claim once the corpus is larger than
10. -/
theorem ratio_cond_iff (L n : Nat) (hn : n > 10) :
    ((if n > 0 then (L : ℚ) / (n : ℚ) else 0) > mkRat 9 10) ↔
      ((L : ℚ) > mkRat 9 10 * (n : ℚ)) := by
  have hpos : (0 : ℚ) < (n : ℚ) := by
    have : (0 : Nat) < n := by omega
    exact_mod_cast this
  rw [if_pos (by omega)]
  rw [gt_iff_lt, lt_div_iff₀ hpos, gt_iff_lt]

/-- C7: the economy-tier escalation judgement of the query route (low
confidence or failed validation, with the combined reason) is exactly the
four-condition judgement of the claim, in the claimed priority order; both
sides are total functions (nothing is raised). -/
theorem resultValidator_spec (result : QResult) (text : String) (todos : List Todo) :
    routeEscalationCheck result text todos = specEscalationJudgement result text todos := by
  unfold routeEscalationCheck specEscalationJudgement isLowConfidence validateQueryResults
    specLowConfidenceReason LOW_CONFIDENCE_THRESHOLD
  cases hconf : result.confidence with
  | some c =>
    by_cases hc : c < mkRat 7 10
    · have hne := jsOrElse_default_ne_empty result.confidenceReason c
      simp [hc, jsOrOpt, hne]
    · simp only [hc, if_false, decide_eq_true_eq]
      by_cases h2 : isQuestionAboutTodos text = true ∧ todos.length > 0 ∧
          result.matchingTodoIds.length = 0 ∧ result.isQuery = true
      · simp [h2, hc, jsOrOpt]
      · simp only [h2, if_false]
        by_cases h3 : result.matchingTodoIds.length > 100
        · simp [h2, h3, hc, jsOrOpt]
        · simp only [h3, if_false]
          by_cases h10 : todos.length > 10
          · have hiff := ratio_cond_iff result.matchingTodoIds.length todos.length h10
            by_cases h4 : isSpecificQuery text = true ∧
                (result.matchingTodoIds.length : ℚ) > mkRat 9 10 * (todos.length : ℚ) ∧
                todos.length > 10
            · have h4v : isSpecificQuery text = true ∧
                  (if todos.length > 0 then
                    (result.matchingTodoIds.length : ℚ) / (todos.length : ℚ) else 0) > mkRat 9 10 ∧
                  todos.length > 10 := ⟨h4.1, hiff.mpr h4.2.1, h4.2.2⟩
              simp [h4, h4v, hc, jsOrOpt]
            · have h4v : ¬ (isSpecificQuery text = true ∧
                  (if todos.length > 0 then
                    (result.matchingTodoIds.length : ℚ) / (todos.length : ℚ) else 0) > mkRat 9 10 ∧
                  todos.length > 10) := by
                intro hcon
                exact h4 ⟨hcon.1, hiff.mp hcon.2.1, hcon.2.2⟩
              simp [h4, h4v, hc, jsOrOpt]
          · have h4 : ¬ (isSpecificQuery text = true ∧
                (result.matchingTodoIds.length : ℚ) > mkRat 9 10 * (todos.length : ℚ) ∧
                todos.length > 10) := fun hcon => h10 hcon.2.2
            have h4v : ¬ (isSpecificQuery text = true ∧
                (if todos.length > 0 then
                  (result.matchingTodoIds.length : ℚ) / (todos.length : ℚ) else 0) > mkRat 9 10 ∧
                todos.length > 10) := fun hcon => h10 hcon.2.2
            simp [h4, h4v, hc, jsOrOpt]
  | none =>
    simp only [if_false, Bool.false_eq_true]
    by_cases h2 : isQuestionAboutTodos text = true ∧ todos.length > 0 ∧
        result.matchingTodoIds.length = 0 ∧ result.isQuery = true
    · simp [h2, jsOrOpt]
    · simp only [h2, if_false]
      by_cases h3 : result.matchingTodoIds.length > 100
      · simp [h2, h3, jsOrOpt]
      · simp only [h3, if_false]
        by_cases h10 : todos.length > 10
        · have hiff := ratio_cond_iff result.matchingTodoIds.length todos.length h10
          by_cases h4 : isSpecificQuery text = true ∧
              (result.matchingTodoIds.length : ℚ) > mkRat 9 10 * (todos.length : ℚ) ∧
              todos.length > 10
          · have h4v : isSpecificQuery text = true ∧
                (if todos.length > 0 then
                  (result.matchingTodoIds.length : ℚ) / (todos.length : ℚ) else 0) > mkRat 9 10 ∧
                todos.length > 10 := ⟨h4.1, hiff.mpr h4.2.1, h4.2.2⟩
            simp [h4, h4v, jsOrOpt]
          · have h4v : ¬ (isSpecificQuery text = true ∧
                (if todos.length > 0 then
                  (result.matchingTodoIds.length : ℚ) / (todos.length : ℚ) else 0) > mkRat 9 10 ∧
                todos.length > 10) := by
              intro hcon
              exact h4 ⟨hcon.1, hiff.mp hcon.2.1, hcon.2.2⟩
            simp [h4, h4v, jsOrOpt]
        · have h4 : ¬ (isSpecificQuery text = true ∧
              (result.matchingTodoIds.length : ℚ) > mkRat 9 10 * (todos.length : ℚ) ∧
              todos.length > 10) := fun hcon => h10 hcon.2.2
          have h4v : ¬ (isSpecificQuery text = true ∧
              (if todos.length > 0 then
                (result.matchingTodoIds.length : ℚ) / (todos.length : ℚ) else 0) > mkRat 9 10 ∧
              todos.length > 10) := fun hcon => h10 hcon.2.2
          simp [h4, h4v, jsOrOpt]

/-- The two remote inference providers. -/
inductive Provider where
  | anthropic
  | openai
deriving DecidableEq, Repr

/-- Oracle for the remote calls of the query route: key availability per
provider, and for each provider a map from the requested model identifier
to the parsed result (`some r`) or a thrown error (`none`), covering
network failures, provider errors and malformed JSON alike. -/
structure ProviderOracle where
  anthropicKey : Bool
  openaiKey : Bool
  anthropic : String → Option QResult
  openai : String → Option QResult

/-- Observable outcome of one POST to the query route: the JSON body
returned to the caller (`none` for the 400/500/503 error responses), the
final value of the local `usedTier` variable (logged server-side only),
the provider calls issued in order with the model identifier used, and the
final `escalationCount`. -/
structure RouteResult where
  body : Option QResult
  usedTier : ModelTier
  invocations : List (Provider × String)
  escalations : Nat
deriving DecidableEq, Repr

/-- The POST handler of the query route (part of app/api/ai/query), with
the tier decision passed in: validate the text, try Anthropic first
(when its key is set), check the fast-tier result for low confidence or
suspicious validation and retry once with the hardcoded advanced model,
fall back to OpenAI at the originally selected model on any Anthropic
error, and mirror the same logic on OpenAI alone when only its key is set.
`trackUsage` never throws (it catches internally) and is not modelled. -/
def runQueryRouteWith (sel : ModelSelectionResult) (text : String) (todos : List Todo)
    (o : ProviderOracle) : RouteResult :=
  if text = "" then
    { body := none, usedTier := sel.tier, invocations := [], escalations := 0 }
  else if o.anthropicKey then
    match o.anthropic sel.anthropicModel with
    | some r =>
      if sel.tier = ModelTier.fast ∧ 0 < MAX_ESCALATIONS_PER_REQUEST ∧
          (routeEscalationCheck r text todos).1 = true then
        match o.anthropic "claude-sonnet-4-5-20250929" with
        | some r2 =>
          { body := some r2, usedTier := ModelTier.advanced,
            invocations := [(Provider.anthropic, sel.anthropicModel),
                            (Provider.anthropic, "claude-sonnet-4-5-20250929")],
            escalations := 1 }
        | none =>
          if o.openaiKey then
            match o.openai sel.openaiModel with
            | some r3 =>
              { body := some r3, usedTier := sel.tier,
                invocations := [(Provider.anthropic, sel.anthropicModel),
                                (Provider.anthropic, "claude-sonnet-4-5-20250929"),
                                (Provider.openai, sel.openaiModel)],
                escalations := 1 }
            | none =>
              { body := none, usedTier := sel.tier,
                invocations := [(Provider.anthropic, sel.anthropicModel),
                                (Provider.anthropic, "claude-sonnet-4-5-20250929"),
                                (Provider.openai, sel.openaiModel)],
                escalations := 1 }
          else
            { body := none, usedTier := sel.tier,
              invocations := [(Provider.anthropic, sel.anthropicModel),
                              (Provider.anthropic, "claude-sonnet-4-5-20250929")],
              escalations := 1 }
      else
        { body := some r, usedTier := sel.tier,
          invocations := [(Provider.anthropic, sel.anthropicModel)], escalations := 0 }
    | none =>
      if o.openaiKey then
        match o.openai sel.openaiModel with
        | some r3 =>
          { body := some r3, usedTier := sel.tier,
            invocations := [(Provider.anthropic, sel.anthropicModel),
                            (Provider.openai, sel.openaiModel)],
            escalations := 0 }
        | none =>
          { body := none, usedTier := sel.tier,
            invocations := [(Provider.anthropic, sel.anthropicModel),
                            (Provider.openai, sel.openaiModel)],
            escalations := 0 }
      else
        { body := none, usedTier := sel.tier,
          invocations := [(Provider.anthropic, sel.anthropicModel)], escalations := 0 }
  else if o.openaiKey then
    match o.openai sel.openaiModel with
    | some r =>
      if sel.tier = ModelTier.fast ∧ 0 < MAX_ESCALATIONS_PER_REQUEST ∧
          (routeEscalationCheck r text todos).1 = true then
        match o.openai "gpt-4.1" with
        | some r2 =>
          { body := some r2, usedTier := ModelTier.advanced,
            invocations := [(Provider.openai, sel.openaiModel),
                            (Provider.openai, "gpt-4.1")],
            escalations := 1 }
        | none =>
          { body := none, usedTier := sel.tier,
            invocations := [(Provider.openai, sel.openaiModel),
                            (Provider.openai, "gpt-4.1")],
            escalations := 1 }
      else
        { body := some r, usedTier := sel.tier,
          invocations := [(Provider.openai, sel.openaiModel)], escalations := 0 }
    | none =>
      { body := none, usedTier := sel.tier,
        invocations := [(Provider.openai, sel.openaiModel)], escalations := 0 }
  else
    { body := none, usedTier := sel.tier, invocations := [], escalations := 0 }

/-- The query route POST handler. -/
def runQueryRoute (text : String) (todos : List Todo) (o : ProviderOracle) : RouteResult :=
  runQueryRouteWith (selectQueryModel text todos) text todos o

/-- Number of invocations that used an advanced-tier model identifier. -/
def countAdvancedInvocations (R : RouteResult) : Nat :=
  R.invocations.countP
    (fun p => p.2 = "claude-sonnet-4-5-20250929" || p.2 = "gpt-4.1")

/-- The selector returns one of exactly two identifier bundles: the economy
bundle with the fast tier, or the advanced bundle with the advanced tier. -/
theorem selectQueryModel_bundles (text : String) (todos : List Todo) :
    ((selectQueryModel text todos).tier = ModelTier.fast ∧
      (selectQueryModel text todos).anthropicModel = "claude-haiku-4-5-20251001" ∧
      (selectQueryModel text todos).openaiModel = "o4-mini") ∨
    ((selectQueryModel text todos).tier = ModelTier.advanced ∧
      (selectQueryModel text todos).anthropicModel = "claude-sonnet-4-5-20250929" ∧
      (selectQueryModel text todos).openaiModel = "gpt-4.1") := by
  unfold selectQueryModel selectQueryModelFrom
  repeat' split
  all_goals first
    | exact Or.inr ⟨rfl, rfl, rfl⟩
    | exact Or.inl ⟨rfl, rfl, rfl⟩

theorem escalations_le_one (sel : ModelSelectionResult) (text : String)
    (todos : List Todo) (o : ProviderOracle) :
    (runQueryRouteWith sel text todos o).escalations ≤ 1 := by
  unfold runQueryRouteWith
  repeat' split
  all_goals simp

/-- C3 counterexample: the claim says the advanced tier is invoked at most
once per request, but when the initial selection is already the advanced
tier (here the ambiguous input "maybe?") and the Anthropic call fails, the
same-tier provider failover invokes the advanced tier a second time on
OpenAI: two advanced-tier invocations in one request. -/
theorem advanced_invoked_twice :
    countAdvancedInvocations (runQueryRoute "maybe?" []
      { anthropicKey := true, openaiKey := true,
        anthropic := fun _ => none,
        openai := fun m => if m = "gpt-4.1" then
          some { isQuery := true, intent := "search", keywords := [], response := "answer",
                 matchingTodoIds := [], confidence := some (mkRat 19 20),
                 confidenceReason := some "clear" }
          else none }) = 2 := by decide

/-- C3 amended: escalation to the advanced tier happens at most once per
request — the counter starts at zero, escalation is attempted only when
the initially selected tier was fast and the counter is below the budget,
and no further escalation occurs after an advanced invocation even if its
result would itself be judged low-confidence or invalid; moreover, when
the initial selection is the fast tier the advanced tier is invoked at
most once, and in every case at most twice (the second only through
same-tier provider failover of an initially-advanced selection). -/
theorem escalation_bounded (text : String) (todos : List Todo) (o : ProviderOracle) :
    (runQueryRoute text todos o).escalations ≤ MAX_ESCALATIONS_PER_REQUEST ∧
    countAdvancedInvocations (runQueryRoute text todos o) ≤ 2 ∧
    ((selectQueryModel text todos).tier = ModelTier.fast →
      countAdvancedInvocations (runQueryRoute text todos o) ≤ 1) := by
  rcases selectQueryModel_bundles text todos with ⟨ht, ha, ho⟩ | ⟨ht, ha, ho⟩
  · have hcount : countAdvancedInvocations (runQueryRoute text todos o) ≤ 1 := by
      unfold runQueryRoute countAdvancedInvocations runQueryRouteWith
      rw [ha, ho]
      repeat' split
      all_goals simp [List.countP_cons, List.countP_nil]
    exact ⟨escalations_le_one _ _ _ _, le_trans hcount (by omega), fun _ => hcount⟩
  · have hcount : countAdvancedInvocations (runQueryRoute text todos o) ≤ 2 := by
      unfold runQueryRoute countAdvancedInvocations runQueryRouteWith
      rw [ht, ha, ho]
      have hg : (ModelTier.advanced = ModelTier.fast) = False := eq_false (by decide)
      simp only [hg, false_and, if_false]
      repeat' split
      all_goals simp [List.countP_cons, List.countP_nil]
    refine ⟨escalations_le_one _ _ _ _, hcount, fun hf => ?_⟩
    rw [ht] at hf
    cases hf

/-- Witness for C3: a plain fast-tier request against an Anthropic-only
oracle invokes the advanced tier at most once. -/
theorem escalation_bounded_witness :
    (selectQueryModel "walk dog" []).tier = ModelTier.fast ∧
    countAdvancedInvocations (runQueryRoute "walk dog" []
      { anthropicKey := true, openaiKey := false,
        anthropic := fun _ =>
          some { isQuery := false, intent := "todo_creation", keywords := [], response := "",
                 matchingTodoIds := [], confidence := some (mkRat 19 20),
                 confidenceReason := some "clear" },
        openai := fun _ => none }) ≤ 1 :=
  ⟨by decide, (escalation_bounded "walk dog" [] _).2.2 (by decide)⟩

/-- C8 counterexample: the response body returned to the caller does not
report the tier actually used — an escalated request and a non-escalated
request can return byte-identical bodies while their internal
tierActuallyUsed values differ, so the caller cannot observe escalation
from the response. -/
theorem route_tier_unobservable :
    ((runQueryRoute "hello" []
      { anthropicKey := true, openaiKey := false,
        anthropic := fun m =>
          if m = "claude-haiku-4-5-20251001" then
            some { isQuery := true, intent := "search", keywords := [], response := "hi",
                   matchingTodoIds := [], confidence := some (mkRat 3 10),
                   confidenceReason := some "unsure" }
          else
            some { isQuery := true, intent := "search", keywords := [], response := "hi",
                   matchingTodoIds := [], confidence := some (mkRat 19 20),
                   confidenceReason := some "clear" },
        openai := fun _ => none }).body =
    (runQueryRoute "hello" []
      { anthropicKey := true, openaiKey := false,
        anthropic := fun _ =>
          some { isQuery := true, intent := "search", keywords := [], response := "hi",
                 matchingTodoIds := [], confidence := some (mkRat 19 20),
                 confidenceReason := some "clear" },
        openai := fun _ => none }).body) ∧
    (runQueryRoute "hello" []
      { anthropicKey := true, openaiKey := false,
        anthropic := fun m =>
          if m = "claude-haiku-4-5-20251001" then
            some { isQuery := true, intent := "search", keywords := [], response := "hi",
                   matchingTodoIds := [], confidence := some (mkRat 3 10),
                   confidenceReason := some "unsure" }
          else
            some { isQuery := true, intent := "search", keywords := [], response := "hi",
                   matchingTodoIds := [], confidence := some (mkRat 19 20),
                   confidenceReason := some "clear" },
        openai := fun _ => none }).usedTier ≠
    (runQueryRoute "hello" []
      { anthropicKey := true, openaiKey := false,
        anthropic := fun _ =>
          some { isQuery := true, intent := "search", keywords := [], response := "hi",
                 matchingTodoIds := [], confidence := some (mkRat 19 20),
                 confidenceReason := some "clear" },
        openai := fun _ => none }).usedTier := by
  constructor <;> decide

/-- C8 amended: the route tracks the tier actually used only internally —
after a successful escalation the final result is the advanced model
response and the local usedTier variable is `advanced` (it is logged, never
returned): the body handed to the caller is exactly the raw parsed model
result, which carries no tier field. -/
theorem route_usedTier_internal (text : String) (todos : List Todo)
    (o : ProviderOracle) (r1 r2 : QResult)
    (htext : ¬ text = "")
    (hkey : o.anthropicKey = true)
    (htier : (selectQueryModel text todos).tier = ModelTier.fast)
    (h1 : o.anthropic (selectQueryModel text todos).anthropicModel = some r1)
    (hesc : (routeEscalationCheck r1 text todos).1 = true)
    (h2 : o.anthropic "claude-sonnet-4-5-20250929" = some r2) :
    runQueryRoute text todos o =
      { body := some r2, usedTier := ModelTier.advanced,
        invocations := [(Provider.anthropic, (selectQueryModel text todos).anthropicModel),
                        (Provider.anthropic, "claude-sonnet-4-5-20250929")],
        escalations := 1 } := by
  unfold runQueryRoute runQueryRouteWith
  rw [h1]
  simp [htext, hkey, htier, hesc, h2, MAX_ESCALATIONS_PER_REQUEST]

/-- Witness for C8: a concrete low-confidence fast result escalates and the
route returns exactly the advanced result with internal usedTier
`advanced`. -/
theorem route_usedTier_internal_witness :
    runQueryRoute "hello" []
      { anthropicKey := true, openaiKey := false,
        anthropic := fun m =>
          if m = "claude-haiku-4-5-20251001" then
            some { isQuery := true, intent := "search", keywords := [], response := "hi",
                   matchingTodoIds := [], confidence := some (mkRat 3 10),
                   confidenceReason := some "unsure" }
          else
            some { isQuery := true, intent := "search", keywords := [], response := "hi",
                   matchingTodoIds := [], confidence := some (mkRat 19 20),
                   confidenceReason := some "clear" },
        openai := fun _ => none } =
      { body := some { isQuery := true, intent := "search", keywords := [], response := "hi",
                       matchingTodoIds := [], confidence := some (mkRat 19 20),
                       confidenceReason := some "clear" },
        usedTier := ModelTier.advanced,
        invocations := [(Provider.anthropic, "claude-haiku-4-5-20251001"),
                        (Provider.anthropic, "claude-sonnet-4-5-20250929")],
        escalations := 1 } := by
  have h := route_usedTier_internal "hello" []
    { anthropicKey := true, openaiKey := false,
      anthropic := fun m =>
        if m = "claude-haiku-4-5-20251001" then
          some { isQuery := true, intent := "search", keywords := [], response := "hi",
                 matchingTodoIds := [], confidence := some (mkRat 3 10),
                 confidenceReason := some "unsure" }
        else
          some { isQuery := true, intent := "search", keywords := [], response := "hi",
                 matchingTodoIds := [], confidence := some (mkRat 19 20),
                 confidenceReason := some "clear" },
      openai := fun _ => none }
    { isQuery := true, intent := "search", keywords := [], response := "hi",
      matchingTodoIds := [], confidence := some (mkRat 3 10), confidenceReason := some "unsure" }
    { isQuery := true, intent := "search", keywords := [], response := "hi",
      matchingTodoIds := [], confidence := some (mkRat 19 20), confidenceReason := some "clear" }
    (by decide) (by decide) (by decide) (by decide) (by decide) (by decide)
  rw [h]
  decide

/-- A structured task candidate (`interface ExtractedTodo` in the extract
route). -/
structure ExtractedTodo where
  text : String
  tags : List String
  priority : String
  dueDate : Option String
  context : String
deriving DecidableEq, Repr

/-- Oracle for the extract route: key availability, and the outcome of the
single fixed-model call each provider function makes (`none` = thrown
error of any kind). -/
structure ExtractOracle where
  anthropicKey : Bool
  openaiKey : Bool
  claude : Option (List ExtractedTodo)
  openai : Option (List ExtractedTodo)

/-- extractTodos of the extract route (app/api/ai/extract): try
extractWithClaude — which throws before any API call when the key is
missing and otherwise always requests the fixed model
claude-3-5-sonnet-20241022 — then fall back to extractWithOpenAI with the
fixed model gpt-4o; fail when both fail.  Returns the extraction result
together with the provider calls issued. -/
def runExtractRoute (_text : String) (o : ExtractOracle) :
    Option (List ExtractedTodo) × List (Provider × String) :=
  if o.anthropicKey then
    match o.claude with
    | some r => (some r, [(Provider.anthropic, "claude-3-5-sonnet-20241022")])
    | none =>
      if o.openaiKey then
        match o.openai with
        | some r => (some r, [(Provider.anthropic, "claude-3-5-sonnet-20241022"),
                              (Provider.openai, "gpt-4o")])
        | none => (none, [(Provider.anthropic, "claude-3-5-sonnet-20241022"),
                          (Provider.openai, "gpt-4o")])
      else (none, [(Provider.anthropic, "claude-3-5-sonnet-20241022")])
  else
    if o.openaiKey then
      match o.openai with
      | some r => (some r, [(Provider.openai, "gpt-4o")])
      | none => (none, [(Provider.openai, "gpt-4o")])
    else (none, [])

/-- C9: the creation (extraction) path does not run through the
tier-selection and escalation machinery.  At the failing input
"plan workouts for every weekday" the extraction tier selector picks the
advanced tier with model claude-sonnet-4-5-20250929, yet the extract route
— for every oracle, so in particular regardless of result quality — only
ever invokes the fixed models claude-3-5-sonnet-20241022 and gpt-4o with
availability fallback, never the model chosen by the selector and never a
confidence-based retry. -/
theorem extraction_ignores_tier_selection :
    (selectExtractionModel "plan workouts for every weekday").tier = ModelTier.advanced ∧
    (selectExtractionModel "plan workouts for every weekday").anthropicModel =
      "claude-sonnet-4-5-20250929" ∧
    (∀ o : ExtractOracle,
      ((runExtractRoute "plan workouts for every weekday" o).2.all
        (fun p => p.2 = "claude-3-5-sonnet-20241022" || p.2 = "gpt-4o")) = true) := by
  refine ⟨by decide, by decide, ?_⟩
  intro o
  unfold runExtractRoute
  repeat' split
  all_goals simp

end TodoPipeline
